import Mathlib

/-!
Shallow embedding of the 2D circle-physics simulation (`physics.rs`).

The `f32` arithmetic of the source is modelled by real numbers; `u32`
arithmetic (the frame counter) is modelled by naturals reduced mod 2^32.
Rust's `f32::signum` (which sends `+0.0` to `1.0`) is modelled by `signum`
below, and `f32::atan2` by `atan2`.  The spatial `HashMap` is modelled by an
insertion-ordered association list of buckets; the source iterates buckets in
an unspecified hash order, the model in insertion order.
-/

namespace Physics

noncomputable section

def SUBTICKS_PER_FRAME : ℕ := 10

def ELASTICITY_COEFFICIENT : ℝ := 0.9

def AIR_DENSITY : ℝ := 0.007

def SIZE_COEFFICIENT_PER_TICK : ℝ := 0.998

def MIN_RADIUS_SIZE : ℝ := 0.5

def GRAVITY : ℝ := 0.2

def CELL_SIZE : ℝ := 50

structure Circle where
  x_pos : ℝ
  y_pos : ℝ
  radius : ℝ
  velocity : ℝ × ℝ

instance : Inhabited Circle := ⟨⟨0, 0, 0, (0, 0)⟩⟩

structure StaticCircle where
  x_pos : ℝ
  y_pos : ℝ
  radius : ℝ

structure StaticRectangle where
  x_pos : ℝ
  y_pos : ℝ
  width : ℝ
  height : ℝ

inductive GridMessage where
  | addCircle (circle : Circle)
  | addStaticCircle (static_circle : StaticCircle)
  | addStaticRectangle (static_rectangle : StaticRectangle)
  | resize (width height : ℝ)

structure Grid where
  frame_number : ℕ
  width : ℝ
  height : ℝ
  circles : List Circle
  static_circles : List StaticCircle
  static_rectangles : List StaticRectangle

structure GridFrame where
  frame_number : ℕ
  width : ℝ
  height : ℝ
  circles : List Circle
  static_circles : List StaticCircle
  static_rectangles : List StaticRectangle

/-- Models `f32::atan2` on reals (`atan2 0 0 = 0`, as in libm). -/
def atan2 (y x : ℝ) : ℝ :=
  if 0 < x then Real.arctan (y / x)
  else if x < 0 then
    (if 0 ≤ y then Real.arctan (y / x) + Real.pi else Real.arctan (y / x) - Real.pi)
  else if 0 < y then Real.pi / 2
  else if y < 0 then -(Real.pi / 2)
  else 0

/-- Models `f32::signum` on reals: `+0.0` (the only real zero) maps to `1`. -/
def signum (x : ℝ) : ℝ := if x < 0 then -1 else 1

/-- The free-standing `clamp` helper at the bottom of `physics.rs`. -/
def clamp (value min max : ℝ) : ℝ :=
  if value < min then min else if max < value then max else value

/-- The message-drain `match` at the top of `Grid::tick`. -/
def processMessage (grid : Grid) (message : GridMessage) : Grid :=
  match message with
  | .addCircle c => { grid with circles := grid.circles ++ [c] }
  | .addStaticCircle sc => { grid with static_circles := grid.static_circles ++ [sc] }
  | .addStaticRectangle sr =>
      { grid with static_rectangles := grid.static_rectangles ++ [sr] }
  | .resize width height => { grid with width := width, height := height }

/-- The subtick-independent force loop of `Grid::tick`: air resistance on the
velocity and the per-tick radius shrink. -/
def applyAirResistanceAndShrink (circle : Circle) : Circle :=
  let velocity := Real.sqrt (circle.velocity.1 ^ 2 + circle.velocity.2 ^ 2)
  let resistance := velocity * AIR_DENSITY
  let angle := atan2 circle.velocity.2 circle.velocity.1
  { circle with
      velocity := (circle.velocity.1 - resistance * Real.cos angle,
                   circle.velocity.2 - resistance * Real.sin angle),
      radius := circle.radius * SIZE_COEFFICIENT_PER_TICK }

/-- The per-sub-step gravity increment of `Grid::tick`. -/
def applyGravity (sub_ticks : ℕ) (circle : Circle) : Circle :=
  { circle with
      velocity := (circle.velocity.1, circle.velocity.2 + GRAVITY / (sub_ticks : ℝ)) }

/-- The per-sub-step position advance of `Grid::tick`. -/
def moveCircle (sub_ticks : ℕ) (circle : Circle) : Circle :=
  { circle with
      x_pos := circle.x_pos + circle.velocity.1 / (sub_ticks : ℝ),
      y_pos := circle.y_pos + circle.velocity.2 / (sub_ticks : ℝ) }

/-- The wall-bounce pass of `Grid::tick`: four sequential boundary checks,
each clamping the center and reflecting (with elasticity loss) the
corresponding velocity component. -/
def bounceWalls (width height : ℝ) (circle : Circle) : Circle :=
  let c1 :=
    if circle.x_pos - circle.radius < 0 then
      { circle with
          x_pos := circle.radius,
          velocity := (-circle.velocity.1 * ELASTICITY_COEFFICIENT, circle.velocity.2) }
    else circle
  let c2 :=
    if width < c1.x_pos + c1.radius then
      { c1 with
          x_pos := width - c1.radius,
          velocity := (-c1.velocity.1 * ELASTICITY_COEFFICIENT, c1.velocity.2) }
    else c1
  let c3 :=
    if c2.y_pos - c2.radius < 0 then
      { c2 with
          y_pos := c2.radius,
          velocity := (c2.velocity.1, -c2.velocity.2 * ELASTICITY_COEFFICIENT) }
    else c2
  if height < c3.y_pos + c3.radius then
    { c3 with
        y_pos := height - c3.radius,
        velocity := (c3.velocity.1, -c3.velocity.2 * ELASTICITY_COEFFICIENT) }
  else c3

/-- The center-to-center distance computed at the top of
`Grid::avoid_collision`. -/
def circleDistance (circle_a circle_b : Circle) : ℝ :=
  Real.sqrt ((circle_b.x_pos - circle_a.x_pos) * (circle_b.x_pos - circle_a.x_pos) +
    (circle_b.y_pos - circle_a.y_pos) * (circle_b.y_pos - circle_a.y_pos))

/-- The shared tail of `Grid::avoid_collision`: velocity decomposition along
the normal `(nx, ny)`, the 1-D elastic-collision formula with `radius²`
masses, recombination, and the half-penetration position push. -/
def resolveCollision (a b : Circle) (nx ny distance min_distance : ℝ) : Circle × Circle :=
  let tx := -ny
  let ty := nx
  let v_an := nx * a.velocity.1 + ny * a.velocity.2
  let v_at := tx * a.velocity.1 + ty * a.velocity.2
  let v_bn := nx * b.velocity.1 + ny * b.velocity.2
  let v_bt := tx * b.velocity.1 + ty * b.velocity.2
  let m1 := a.radius * a.radius
  let m2 := b.radius * b.radius
  let v_an_new := (v_an * (m1 - m2) + 2 * m2 * v_bn) / (m1 + m2)
  let v_bn_new := (v_bn * (m2 - m1) + 2 * m1 * v_an) / (m1 + m2)
  let overlap := 0.5 * (min_distance - distance)
  ({ a with
      velocity := (v_an_new * nx + v_at * tx, v_an_new * ny + v_at * ty),
      x_pos := a.x_pos - overlap * nx,
      y_pos := a.y_pos - overlap * ny },
   { b with
      velocity := (v_bn_new * nx + v_bt * tx, v_bn_new * ny + v_bt * ty),
      x_pos := b.x_pos + overlap * nx,
      y_pos := b.y_pos + overlap * ny })

/-- `Grid::avoid_collision`: early return for separated pairs, the coincident-
center fallback (nudge apart along x, divide by `separation`), and the main
branch dividing by `distance`. -/
def avoid_collision (circle_a circle_b : Circle) : Circle × Circle :=
  let dx := circle_b.x_pos - circle_a.x_pos
  let dy := circle_b.y_pos - circle_a.y_pos
  let distance := circleDistance circle_a circle_b
  let min_distance := circle_a.radius + circle_b.radius
  if min_distance ≤ distance then (circle_a, circle_b)
  else if 1e-8 < distance then
    resolveCollision circle_a circle_b (dx / distance) (dy / distance) distance min_distance
  else
    let separation := min_distance - distance + 1e-8
    let a' := { circle_a with x_pos := circle_a.x_pos - separation / 2 }
    let b' := { circle_b with x_pos := circle_b.x_pos + separation / 2 }
    let dx' := b'.x_pos - a'.x_pos
    let dy' := b'.y_pos - a'.y_pos
    resolveCollision a' b' (dx' / separation) (dy' / separation) distance min_distance

/-- The center distance computed in `Grid::circle_static_circle_collision`. -/
def cscDistance (circle : Circle) (static_circle : StaticCircle) : ℝ :=
  Real.sqrt ((circle.x_pos - static_circle.x_pos) * (circle.x_pos - static_circle.x_pos) +
    (circle.y_pos - static_circle.y_pos) * (circle.y_pos - static_circle.y_pos))

/-- `Grid::circle_static_circle_collision`: on overlap, push the dynamic
circle out along the (unguarded) normal `(dx/distance, dy/distance)` and
reflect the velocity with elasticity loss. -/
def circle_static_circle_collision (circle : Circle) (static_circle : StaticCircle) :
    Circle :=
  let dx := circle.x_pos - static_circle.x_pos
  let dy := circle.y_pos - static_circle.y_pos
  let distance := cscDistance circle static_circle
  let min_distance := circle.radius + static_circle.radius
  if distance < min_distance then
    let nx := dx / distance
    let ny := dy / distance
    let overlap := min_distance - distance
    let v_dot_n := circle.velocity.1 * nx + circle.velocity.2 * ny
    { circle with
        x_pos := circle.x_pos + overlap * nx,
        y_pos := circle.y_pos + overlap * ny,
        velocity := (circle.velocity.1 - 2 * v_dot_n * nx * ELASTICITY_COEFFICIENT,
                     circle.velocity.2 - 2 * v_dot_n * ny * ELASTICITY_COEFFICIENT) }
  else circle

/-- Squared distance from a circle's center to the closest point of an
axis-aligned rectangle, as computed in
`Grid::circle_static_rectangle_collision`. -/
def rectClosestDistSq (circle : Circle) (rect : StaticRectangle) : ℝ :=
  let closest_x := clamp circle.x_pos rect.x_pos (rect.x_pos + rect.width)
  let closest_y := clamp circle.y_pos rect.y_pos (rect.y_pos + rect.height)
  let dx := circle.x_pos - closest_x
  let dy := circle.y_pos - closest_y
  dx * dx + dy * dy

/-- `Grid::circle_static_rectangle_collision`: closest-point test, the
division-free fallback normal when the closest-point distance is ≈ 0, push
out and reflect with elasticity loss. -/
def circle_static_rectangle_collision (circle : Circle) (rect : StaticRectangle) :
    Circle :=
  let closest_x := clamp circle.x_pos rect.x_pos (rect.x_pos + rect.width)
  let closest_y := clamp circle.y_pos rect.y_pos (rect.y_pos + rect.height)
  let dx := circle.x_pos - closest_x
  let dy := circle.y_pos - closest_y
  let distance_squared := dx * dx + dy * dy
  if distance_squared < circle.radius * circle.radius then
    let distance := Real.sqrt distance_squared
    let n : ℝ × ℝ :=
      if 1e-8 < distance then (dx / distance, dy / distance)
      else if |dy| < |dx| then (signum dx, 0) else (0, signum dy)
    let overlap := circle.radius - distance
    let v_dot_n := circle.velocity.1 * n.1 + circle.velocity.2 * n.2
    { circle with
        x_pos := circle.x_pos + overlap * n.1,
        y_pos := circle.y_pos + overlap * n.2,
        velocity := (circle.velocity.1 - 2 * v_dot_n * n.1 * ELASTICITY_COEFFICIENT,
                     circle.velocity.2 - 2 * v_dot_n * n.2 * ELASTICITY_COEFFICIENT) }
  else circle

/-- The inclusive integer range `lo..=hi` as a list. -/
def intRange (lo hi : ℤ) : List ℤ :=
  List.map (fun k : ℕ => lo + (k : ℤ)) (List.range (hi + 1 - lo).toNat)

/-- The grid cells a circle's bounding box spans, in the nested loop order of
`Grid::tick`'s broad-phase build. -/
def cellsOf (circle : Circle) : List (ℤ × ℤ) :=
  let min_cell_x := ⌊(circle.x_pos - circle.radius) / CELL_SIZE⌋
  let max_cell_x := ⌊(circle.x_pos + circle.radius) / CELL_SIZE⌋
  let min_cell_y := ⌊(circle.y_pos - circle.radius) / CELL_SIZE⌋
  let max_cell_y := ⌊(circle.y_pos + circle.radius) / CELL_SIZE⌋
  (intRange min_cell_x max_cell_x).flatMap
    (fun cell_x => (intRange min_cell_y max_cell_y).map (fun cell_y => (cell_x, cell_y)))

/-- `grid.entry(key).or_default().push(i)` on the association-list model of
the `HashMap`. -/
def bucketsInsert : List ((ℤ × ℤ) × List ℕ) → ℤ × ℤ → ℕ → List ((ℤ × ℤ) × List ℕ)
  | [], key, i => [(key, [i])]
  | entry :: rest, key, i =>
      if entry.1 = key then (entry.1, entry.2 ++ [i]) :: rest
      else entry :: bucketsInsert rest key i

/-- Bucket lookup in the association-list model (`[]` when the key is
absent). -/
def bucketGet : List ((ℤ × ℤ) × List ℕ) → ℤ × ℤ → List ℕ
  | [], _ => []
  | entry :: rest, key => if entry.1 = key then entry.2 else bucketGet rest key

/-- The broad-phase grid build of `Grid::tick`: every circle index is pushed
into every cell its bounding box overlaps. -/
def buildGrid (circles : List Circle) : List ((ℤ × ℤ) × List ℕ) :=
  circles.enum.foldl
    (fun grid p => (cellsOf p.2).foldl (fun g key => bucketsInsert g key p.1) grid) []

/-- The `idx1 < idx2` double loop over one bucket's indices in `Grid::tick`. -/
def pairsOf : List ℕ → List (ℕ × ℕ)
  | [] => []
  | i :: rest => rest.map (fun j => (i, j)) ++ pairsOf rest

/-- All candidate index pairs produced from the grid's buckets. -/
def candidatePairs (grid : List ((ℤ × ℤ) × List ℕ)) : List (ℕ × ℕ) :=
  grid.flatMap (fun entry => pairsOf entry.2)

/-- `Grid::get_two_mut`: the `assert!(i != j)` is modelled by returning
`none` when the indices coincide. -/
def get_two_mut (circles : List Circle) (i j : ℕ) : Option (Circle × Circle) :=
  if i = j then none
  else some (circles.getD i default, circles.getD j default)

/-- One narrow-phase call of the pair loop: fetch both circles via
`get_two_mut`, resolve, and write both back. -/
def applyPair (circles : List Circle) (p : ℕ × ℕ) : List Circle :=
  match get_two_mut circles p.1 p.2 with
  | none => circles
  | some (circle_a, circle_b) =>
      let r := avoid_collision circle_a circle_b
      (circles.set p.1 r.1).set p.2 r.2

/-- The dynamic-dynamic collision pass of one sub-step. -/
def collidePairs (circles : List Circle) : List Circle :=
  (candidatePairs (buildGrid circles)).foldl applyPair circles

/-- One sub-step of `Grid::tick`: gravity, move, wall bounce, broad-phase +
dynamic-dynamic narrow phase, then the full cross products against static
circles and static rectangles. -/
def subStep (width height : ℝ) (sub_ticks : ℕ) (static_circles : List StaticCircle)
    (static_rectangles : List StaticRectangle) (circles : List Circle) : List Circle :=
  let cs1 := circles.map (applyGravity sub_ticks)
  let cs2 := cs1.map (moveCircle sub_ticks)
  let cs3 := cs2.map (bounceWalls width height)
  let cs4 := collidePairs cs3
  let cs5 := cs4.map (fun c => static_circles.foldl circle_static_circle_collision c)
  cs5.map (fun c => static_rectangles.foldl circle_static_rectangle_collision c)

/-- `Grid::tick`: drain messages, apply per-tick forces and the shrink pass,
remove circles below the minimum radius, run the sub-step loop, bump the
`u32` frame counter, and emit the snapshot. -/
def tick (grid : Grid) (sub_ticks : ℕ) (messages : List GridMessage) :
    Grid × GridFrame :=
  let g1 := messages.foldl processMessage grid
  let cs1 := g1.circles.map applyAirResistanceAndShrink
  let cs2 := cs1.filter (fun c => decide (MIN_RADIUS_SIZE ≤ c.radius))
  let cs3 :=
    (subStep g1.width g1.height sub_ticks g1.static_circles g1.static_rectangles)^[sub_ticks]
      cs2
  let fn := (g1.frame_number + 1) % 2 ^ 32
  ({ g1 with frame_number := fn, circles := cs3 },
   { frame_number := fn, width := g1.width, height := g1.height, circles := cs3,
     static_circles := g1.static_circles, static_rectangles := g1.static_rectangles })

/-- The dynamic circle carried by an `AddCircle` message, if any. -/
def addedCircle : GridMessage → Option Circle
  | .addCircle c => some c
  | _ => none

/-- The static circle carried by an `AddStaticCircle` message, if any. -/
def addedStaticCircle : GridMessage → Option StaticCircle
  | .addStaticCircle sc => some sc
  | _ => none

/-- The static rectangle carried by an `AddStaticRectangle` message, if any. -/
def addedStaticRectangle : GridMessage → Option StaticRectangle
  | .addStaticRectangle sr => some sr
  | _ => none

/-- Whether a message is a `Resize` command. -/
def GridMessage.isResize : GridMessage → Bool
  | .resize _ _ => true
  | _ => false

/-- Decidable form of the wall-containment invariant for one circle. -/
def inBounds (width height : ℝ) (circle : Circle) : Bool :=
  decide (circle.radius ≤ circle.x_pos ∧ circle.x_pos ≤ width - circle.radius ∧
    circle.radius ≤ circle.y_pos ∧ circle.y_pos ≤ height - circle.radius)

/-! Concrete inputs used by witnesses and counterexamples. -/

/-- An empty 100×100 world. -/
def g0 : Grid := ⟨0, 100, 100, [], [], []⟩

/-- A pair of separated circles (center distance 5, radii 2 + 2). -/
def wa5 : Circle := ⟨0, 0, 2, (0, 0)⟩

def wb5 : Circle := ⟨3, 4, 2, (0, 0)⟩

/-- A pair of overlapping circles (center distance 5, radii 3 + 3). -/
def wa1 : Circle := ⟨0, 0, 3, (0, 0)⟩

def wb1 : Circle := ⟨3, 4, 3, (0, 0)⟩

/-- A circle away from `wrect1` (closest-point distance 5). -/
def wc1 : Circle := ⟨13, 14, 1, (0, 0)⟩

def wrect1 : StaticRectangle := ⟨0, 0, 10, 10⟩

/-- Equal-radius overlapping circles at center distance 3/2 along the
direction (3/5, 4/5). -/
def wa6 : Circle := ⟨0, 0, 1, (1, 0)⟩

def wb6 : Circle := ⟨9 / 10, 6 / 5, 1, (-1, 0)⟩

/-- A dynamic circle whose center coincides with that of `wsc1`. -/
def wc1c : Circle := ⟨1, 1, 2, (0, 0)⟩

def wsc1 : StaticCircle := ⟨1, 1, 3⟩

/-- A 100×100 static rectangle at the origin. -/
def wrect8 : StaticRectangle := ⟨0, 0, 100, 100⟩

/-- Strictly inside `wrect8`, nearest to the left edge. -/
def wc8 : Circle := ⟨1, 50, 5, (0, 3)⟩

/-- Strictly inside `wrect8`, just below its top edge. -/
def cc8top : Circle := ⟨50, 1, 5, (0, 0)⟩

/-- Strictly inside `wrect8`, just above its bottom edge (mirror of
`cc8top`). -/
def cc8bot : Circle := ⟨50, 99, 5, (0, 0)⟩

/-- A 100×100 world holding two overlapping resting circles, the first
touching the left wall. -/
def cex3g : Grid := ⟨0, 100, 100, [⟨5, 25, 5, (0, 0)⟩, ⟨12, 25, 5, (0, 0)⟩], [], []⟩

/-- The first circle of `cex3g` after shrink, gravity and move of the single
sub-step. -/
def cex3a : Circle := ⟨5, 126 / 5, 499 / 100, (0, 1 / 5)⟩

/-- The second circle of `cex3g` after shrink, gravity and move of the single
sub-step. -/
def cex3b : Circle := ⟨12, 126 / 5, 499 / 100, (0, 1 / 5)⟩

/-- A 100×100 world holding one resting circle at its center. -/
def w3g : Grid := ⟨0, 100, 100, [⟨50, 50, 5, (0, 0)⟩], [], []⟩

end

/-! ## Helper lemmas -/

theorem sqrt_eval {b c : ℝ} (hb : 0 ≤ b) (h : b * b = c) : Real.sqrt c = b := by
  rw [← h]
  exact Real.sqrt_mul_self hb

theorem circleDistance_nonneg (a b : Circle) : 0 ≤ circleDistance a b :=
  Real.sqrt_nonneg _

theorem processMessage_frame (g : Grid) (m : GridMessage) :
    (processMessage g m).frame_number = g.frame_number := by
  cases m <;> rfl

theorem foldl_processMessage_frame (msgs : List GridMessage) (g : Grid) :
    (msgs.foldl processMessage g).frame_number = g.frame_number := by
  induction msgs generalizing g with
  | nil => rfl
  | cons m rest ih => rw [List.foldl_cons, ih, processMessage_frame]

theorem foldl_processMessage_width_height (msgs : List GridMessage) (g : Grid)
    (h : ∀ m ∈ msgs, m.isResize = false) :
    (msgs.foldl processMessage g).width = g.width ∧
    (msgs.foldl processMessage g).height = g.height := by
  induction msgs generalizing g with
  | nil => exact ⟨rfl, rfl⟩
  | cons m rest ih =>
    have hm := h m (List.mem_cons_self m rest)
    have hrest := ih (processMessage g m) (fun m' hm' => h m' (List.mem_cons_of_mem m hm'))
    have hpm : (processMessage g m).width = g.width ∧
        (processMessage g m).height = g.height := by
      cases m with
      | resize w h => simp [GridMessage.isResize] at hm
      | addCircle c => exact ⟨rfl, rfl⟩
      | addStaticCircle sc => exact ⟨rfl, rfl⟩
      | addStaticRectangle sr => exact ⟨rfl, rfl⟩
    rw [List.foldl_cons]
    exact ⟨hrest.1.trans hpm.1, hrest.2.trans hpm.2⟩

theorem foldl_processMessage_circles (msgs : List GridMessage) (g : Grid) :
    (msgs.foldl processMessage g).circles =
      g.circles ++ msgs.filterMap addedCircle := by
  induction msgs generalizing g with
  | nil => simp
  | cons m rest ih =>
    rw [List.foldl_cons, ih, List.filterMap_cons]
    cases m <;> simp [processMessage, addedCircle]

theorem foldl_processMessage_static_circles (msgs : List GridMessage) (g : Grid) :
    (msgs.foldl processMessage g).static_circles =
      g.static_circles ++ msgs.filterMap addedStaticCircle := by
  induction msgs generalizing g with
  | nil => simp
  | cons m rest ih =>
    rw [List.foldl_cons, ih, List.filterMap_cons]
    cases m <;> simp [processMessage, addedStaticCircle]

theorem foldl_processMessage_static_rectangles (msgs : List GridMessage) (g : Grid) :
    (msgs.foldl processMessage g).static_rectangles =
      g.static_rectangles ++ msgs.filterMap addedStaticRectangle := by
  induction msgs generalizing g with
  | nil => simp
  | cons m rest ih =>
    rw [List.foldl_cons, ih, List.filterMap_cons]
    cases m <;> simp [processMessage, addedStaticRectangle]

/-! Radius preservation through the sub-step passes. -/

theorem applyGravity_radius (st : ℕ) (c : Circle) :
    (applyGravity st c).radius = c.radius := rfl

theorem moveCircle_radius (st : ℕ) (c : Circle) :
    (moveCircle st c).radius = c.radius := rfl

theorem bounceWalls_radius (w h : ℝ) (c : Circle) :
    (bounceWalls w h c).radius = c.radius := by
  simp only [bounceWalls]
  split_ifs <;> rfl

theorem avoid_collision_radius (a b : Circle) :
    (avoid_collision a b).1.radius = a.radius ∧
    (avoid_collision a b).2.radius = b.radius := by
  simp only [avoid_collision, resolveCollision]
  split_ifs <;> exact ⟨rfl, rfl⟩

theorem circle_static_circle_collision_radius (c : Circle) (sc : StaticCircle) :
    (circle_static_circle_collision c sc).radius = c.radius := by
  simp only [circle_static_circle_collision]
  split_ifs <;> rfl

theorem circle_static_rectangle_collision_radius (c : Circle) (r : StaticRectangle) :
    (circle_static_rectangle_collision c r).radius = c.radius := by
  simp only [circle_static_rectangle_collision]
  split_ifs <;> rfl

theorem foldl_csc_radius (scs : List StaticCircle) (c : Circle) :
    (scs.foldl circle_static_circle_collision c).radius = c.radius := by
  induction scs generalizing c with
  | nil => rfl
  | cons sc rest ih =>
    rw [List.foldl_cons, ih, circle_static_circle_collision_radius]

theorem foldl_csr_radius (srs : List StaticRectangle) (c : Circle) :
    (srs.foldl circle_static_rectangle_collision c).radius = c.radius := by
  induction srs generalizing c with
  | nil => rfl
  | cons sr rest ih =>
    rw [List.foldl_cons, ih, circle_static_rectangle_collision_radius]

theorem map_radius_set (cs : List Circle) (i : ℕ) (c : Circle)
    (h : c.radius = (cs.getD i default).radius) :
    (cs.set i c).map Circle.radius = cs.map Circle.radius := by
  induction cs generalizing i with
  | nil => simp
  | cons hd tl ih =>
    cases i with
    | zero =>
      rw [List.getD_cons_zero] at h
      simp [List.set, h]
    | succ n =>
      rw [List.getD_cons_succ] at h
      simp only [List.set, List.map_cons]
      rw [ih n h]

theorem applyPair_radius (cs : List Circle) (p : ℕ × ℕ) :
    (applyPair cs p).map Circle.radius = cs.map Circle.radius := by
  simp only [applyPair, get_two_mut]
  split_ifs with h
  · rfl
  · have h1 := avoid_collision_radius (cs.getD p.1 default) (cs.getD p.2 default)
    have hset1 : (cs.set p.1
        (avoid_collision (cs.getD p.1 default) (cs.getD p.2 default)).1).map Circle.radius
        = cs.map Circle.radius := map_radius_set _ _ _ h1.1
    have hgd : ((cs.set p.1
        (avoid_collision (cs.getD p.1 default) (cs.getD p.2 default)).1).getD p.2 default)
        = cs.getD p.2 default := by
      rw [List.getD_eq_getElem?_getD, List.getElem?_set_ne h,
        ← List.getD_eq_getElem?_getD]
    rw [map_radius_set _ _ _ (by rw [hgd]; exact h1.2), hset1]

theorem foldl_applyPair_radius (ps : List (ℕ × ℕ)) (cs : List Circle) :
    (ps.foldl applyPair cs).map Circle.radius = cs.map Circle.radius := by
  induction ps generalizing cs with
  | nil => rfl
  | cons p rest ih => rw [List.foldl_cons, ih, applyPair_radius]

theorem collidePairs_radius (cs : List Circle) :
    (collidePairs cs).map Circle.radius = cs.map Circle.radius :=
  foldl_applyPair_radius _ _

theorem map_radius_map (f : Circle → Circle) (h : ∀ c, (f c).radius = c.radius)
    (cs : List Circle) : (cs.map f).map Circle.radius = cs.map Circle.radius := by
  rw [List.map_map]
  exact List.map_congr_left (fun c _ => h c)

theorem subStep_radius (w ht : ℝ) (st : ℕ) (scs : List StaticCircle)
    (srs : List StaticRectangle) (cs : List Circle) :
    (subStep w ht st scs srs cs).map Circle.radius = cs.map Circle.radius := by
  simp only [subStep]
  rw [map_radius_map _ (foldl_csr_radius srs), map_radius_map _ (foldl_csc_radius scs),
    collidePairs_radius, map_radius_map _ (bounceWalls_radius w ht),
    map_radius_map _ (moveCircle_radius st), map_radius_map _ (applyGravity_radius st)]

theorem iterate_subStep_radius (w ht : ℝ) (st : ℕ) (scs : List StaticCircle)
    (srs : List StaticRectangle) (n : ℕ) (cs : List Circle) :
    ((subStep w ht st scs srs)^[n] cs).map Circle.radius = cs.map Circle.radius := by
  induction n generalizing cs with
  | zero => rfl
  | succ k ih => rw [Function.iterate_succ_apply, ih, subStep_radius]

/-! Characterization of the broad-phase grid. -/

theorem bucketGet_bucketsInsert (g : List ((ℤ × ℤ) × List ℕ)) (k : ℤ × ℤ) (i : ℕ)
    (k₀ : ℤ × ℤ) :
    bucketGet (bucketsInsert g k i) k₀ =
      if k₀ = k then bucketGet g k₀ ++ [i] else bucketGet g k₀ := by
  induction g with
  | nil =>
    simp only [bucketsInsert, bucketGet]
    by_cases h : k₀ = k
    · subst h
      simp
    · rw [if_neg (fun hh => h hh.symm), if_neg h]
  | cons e rest ih =>
    simp only [bucketsInsert]
    by_cases he : e.1 = k
    · rw [if_pos he]
      simp only [bucketGet]
      by_cases hk : k₀ = k
      · have h1 : e.1 = k₀ := he.trans hk.symm
        rw [if_pos h1, if_pos hk, if_pos h1]
      · have h1 : ¬ e.1 = k₀ := fun hh => hk (hh.symm.trans he)
        rw [if_neg h1, if_neg hk, if_neg h1]
    · rw [if_neg he]
      simp only [bucketGet]
      by_cases hek : e.1 = k₀
      · have hknk : ¬ k₀ = k := fun hh => he (hek.trans hh)
        rw [if_pos hek, if_neg hknk, if_pos hek]
      · simp only [ih, if_neg hek]

theorem bucketGet_foldl_bucketsInsert (ks : List (ℤ × ℤ)) (hnd : ks.Nodup)
    (g : List ((ℤ × ℤ) × List ℕ)) (i : ℕ) (k₀ : ℤ × ℤ) :
    bucketGet (ks.foldl (fun g' k => bucketsInsert g' k i) g) k₀ =
      bucketGet g k₀ ++ (if k₀ ∈ ks then [i] else []) := by
  induction ks generalizing g with
  | nil => simp
  | cons k ks' ih =>
    rw [List.nodup_cons] at hnd
    rw [List.foldl_cons, ih hnd.2, bucketGet_bucketsInsert]
    by_cases h : k₀ = k
    · subst h
      rw [if_pos rfl, if_neg hnd.1, if_pos (List.mem_cons_self _ _)]
      simp
    · rw [if_neg h]
      by_cases h2 : k₀ ∈ ks'
      · rw [if_pos h2, if_pos (List.mem_cons_of_mem _ h2)]
      · rw [if_neg h2, if_neg (by simp [h, h2])]

theorem intRange_nodup (lo hi : ℤ) : (intRange lo hi).Nodup := by
  unfold intRange
  exact List.Nodup.map (fun x y h => by omega) (List.nodup_range _)

theorem mem_intRange {a lo hi : ℤ} : a ∈ intRange lo hi ↔ lo ≤ a ∧ a ≤ hi := by
  unfold intRange
  simp only [List.mem_map, List.mem_range]
  constructor
  · rintro ⟨k, hk, rfl⟩
    omega
  · rintro ⟨h1, h2⟩
    exact ⟨(a - lo).toNat, by omega, by omega⟩

theorem cellsOf_nodup (c : Circle) : (cellsOf c).Nodup := by
  unfold cellsOf
  rw [List.nodup_flatMap]
  refine ⟨fun x _ => (intRange_nodup _ _).map (fun a b h => by
    simpa using congrArg Prod.snd h), ?_⟩
  have h := intRange_nodup ⌊(c.x_pos - c.radius) / CELL_SIZE⌋
    ⌊(c.x_pos + c.radius) / CELL_SIZE⌋
  refine List.Pairwise.imp ?_ h
  intro a b hab
  simp only [Function.onFun, List.Disjoint]
  rintro ⟨x1, y1⟩ hmem1 hmem2
  simp only [List.mem_map] at hmem1 hmem2
  obtain ⟨c1, _, hc1⟩ := hmem1
  obtain ⟨c2, _, hc2⟩ := hmem2
  apply hab
  have e1 : x1 = a := by injection hc1.symm
  have e2 : x1 = b := by injection hc2.symm
  rw [← e1, ← e2]

theorem mem_cellsOf {k : ℤ × ℤ} {c : Circle} :
    k ∈ cellsOf c ↔
      (⌊(c.x_pos - c.radius) / CELL_SIZE⌋ ≤ k.1 ∧
        k.1 ≤ ⌊(c.x_pos + c.radius) / CELL_SIZE⌋) ∧
      (⌊(c.y_pos - c.radius) / CELL_SIZE⌋ ≤ k.2 ∧
        k.2 ≤ ⌊(c.y_pos + c.radius) / CELL_SIZE⌋) := by
  unfold cellsOf
  simp only [List.mem_flatMap, List.mem_map]
  constructor
  · rintro ⟨cx, hcx, cy, hcy, rfl⟩
    exact ⟨mem_intRange.mp hcx, mem_intRange.mp hcy⟩
  · rintro ⟨hx, hy⟩
    exact ⟨k.1, mem_intRange.mpr hx, k.2, mem_intRange.mpr hy, rfl⟩

theorem bucketGet_buildGrid (cs : List Circle) (k : ℤ × ℤ) :
    bucketGet (buildGrid cs) k =
      (List.range cs.length).filter
        (fun i => decide (k ∈ cellsOf (cs.getD i default))) := by
  induction cs using List.reverseRecOn with
  | nil => rfl
  | append_singleton cs c ih =>
    have hbuild : buildGrid (cs ++ [c]) =
        (cellsOf c).foldl (fun g' key => bucketsInsert g' key cs.length)
          (buildGrid cs) := by
      unfold buildGrid
      rw [List.enum_append, List.foldl_append]
      rfl
    rw [hbuild, bucketGet_foldl_bucketsInsert _ (cellsOf_nodup c), ih]
    rw [List.length_append, List.length_cons, List.length_nil]
    simp only [Nat.zero_add]
    rw [List.range_succ, List.filter_append]
    congr 1
    · refine (List.filter_congr ?_).symm
      intro i hi
      rw [List.getD_append _ _ _ i (List.mem_range.mp hi)]
    · rw [List.filter_singleton]
      have hgd : (cs ++ [c]).getD cs.length default = c := by
        rw [List.getD_append_right _ _ _ _ (le_refl _), Nat.sub_self]
        rfl
      rw [hgd]
      by_cases hm : k ∈ cellsOf c
      · simp [hm]
      · simp [hm]

theorem keys_bucketsInsert (g : List ((ℤ × ℤ) × List ℕ)) (k : ℤ × ℤ) (i : ℕ) :
    (bucketsInsert g k i).map Prod.fst =
      if k ∈ g.map Prod.fst then g.map Prod.fst else g.map Prod.fst ++ [k] := by
  induction g with
  | nil => simp [bucketsInsert]
  | cons e rest ih =>
    simp only [bucketsInsert, List.map_cons]
    by_cases he : e.1 = k
    · rw [if_pos he, if_pos (by rw [he]; exact List.mem_cons_self _ _)]
      simp
    · rw [if_neg he]
      simp only [List.map_cons, ih]
      by_cases hk : k ∈ rest.map Prod.fst
      · rw [if_pos hk, if_pos (List.mem_cons_of_mem _ hk)]
      · rw [if_neg hk, if_neg (by
          simp only [List.mem_cons]
          rintro (h | h)
          · exact he h.symm
          · exact hk h)]
        simp

theorem keysNodup_bucketsInsert (g : List ((ℤ × ℤ) × List ℕ)) (k : ℤ × ℤ) (i : ℕ)
    (h : (g.map Prod.fst).Nodup) : ((bucketsInsert g k i).map Prod.fst).Nodup := by
  rw [keys_bucketsInsert]
  by_cases hk : k ∈ g.map Prod.fst
  · rwa [if_pos hk]
  · rw [if_neg hk]
    simp [List.nodup_append, h, hk]

theorem keysNodup_foldl_cells (ks : List (ℤ × ℤ)) (i : ℕ)
    (g : List ((ℤ × ℤ) × List ℕ)) (h : (g.map Prod.fst).Nodup) :
    (((ks.foldl (fun g' k => bucketsInsert g' k i) g)).map Prod.fst).Nodup := by
  induction ks generalizing g with
  | nil => exact h
  | cons k ks' ih => exact ih _ (keysNodup_bucketsInsert g k i h)

theorem keysNodup_buildGrid (cs : List Circle) :
    ((buildGrid cs).map Prod.fst).Nodup := by
  suffices hgen : ∀ (l : List (ℕ × Circle)) (g : List ((ℤ × ℤ) × List ℕ)),
      (g.map Prod.fst).Nodup →
      ((l.foldl (fun grid p =>
        (cellsOf p.2).foldl (fun g' key => bucketsInsert g' key p.1) grid) g).map
          Prod.fst).Nodup by
    exact hgen cs.enum [] (by simp)
  intro l
  induction l with
  | nil => exact fun g h => h
  | cons p rest ih =>
    intro g h
    exact ih _ (keysNodup_foldl_cells _ _ _ h)

theorem entry_eq_bucketGet (g : List ((ℤ × ℤ) × List ℕ))
    (h : (g.map Prod.fst).Nodup) : ∀ e ∈ g, e.2 = bucketGet g e.1 := by
  induction g with
  | nil => intro e he; exact absurd he (List.not_mem_nil e)
  | cons e' rest ih =>
    rw [List.map_cons, List.nodup_cons] at h
    intro e he
    rcases List.mem_cons.mp he with rfl | hmem
    · simp [bucketGet]
    · have hne : ¬ e'.1 = e.1 := by
        intro hh
        exact h.1 (hh ▸ List.mem_map_of_mem Prod.fst hmem)
      simp only [bucketGet]
      rw [if_neg hne]
      exact ih h.2 e hmem

theorem bucketGet_mem_buildGrid (g : List ((ℤ × ℤ) × List ℕ)) (k : ℤ × ℤ)
    (h : bucketGet g k ≠ []) : (k, bucketGet g k) ∈ g := by
  induction g with
  | nil => exact absurd rfl h
  | cons e rest ih =>
    simp only [bucketGet] at h ⊢
    by_cases he : e.1 = k
    · rw [if_pos he]
      exact List.mem_cons.mpr (Or.inl (by rw [← he]))
    · rw [if_neg he] at h ⊢
      exact List.mem_cons_of_mem _ (ih h)

theorem pairsOf_mem (l : List ℕ) (hnd : l.Nodup) :
    ∀ p ∈ pairsOf l, p.1 ≠ p.2 ∧ p.1 ∈ l ∧ p.2 ∈ l := by
  induction l with
  | nil => intro p hp; exact absurd hp (List.not_mem_nil p)
  | cons x xs ih =>
    rw [List.nodup_cons] at hnd
    intro p hp
    rcases List.mem_append.mp hp with hp1 | hp2
    · obtain ⟨j, hj, rfl⟩ := List.mem_map.mp hp1
      exact ⟨fun hh => hnd.1 ((show x = j from hh) ▸ hj), List.mem_cons_self _ _,
        List.mem_cons_of_mem _ hj⟩
    · obtain ⟨h1, h2, h3⟩ := ih hnd.2 p hp2
      exact ⟨h1, List.mem_cons_of_mem _ h2, List.mem_cons_of_mem _ h3⟩

theorem mem_pairsOf_of_mem {l : List ℕ} {i j : ℕ} (hi : i ∈ l) (hj : j ∈ l)
    (hne : i ≠ j) : (i, j) ∈ pairsOf l ∨ (j, i) ∈ pairsOf l := by
  induction l with
  | nil => exact absurd hi (List.not_mem_nil i)
  | cons x xs ih =>
    rcases List.mem_cons.mp hi with rfl | hi'
    · have hj' : j ∈ xs := by
        rcases List.mem_cons.mp hj with rfl | h
        · exact absurd rfl hne
        · exact h
      exact Or.inl (List.mem_append_left _ (List.mem_map_of_mem _ hj'))
    · rcases List.mem_cons.mp hj with rfl | hj'
      · exact Or.inr (List.mem_append_left _ (List.mem_map_of_mem _ hi'))
      · exact (ih hi' hj').imp (List.mem_append_right _) (List.mem_append_right _)

theorem grid_pairs_facts (cs : List Circle) :
    ∀ p ∈ candidatePairs (buildGrid cs),
      p.1 ≠ p.2 ∧ p.1 < cs.length ∧ p.2 < cs.length ∧
      (get_two_mut cs p.1 p.2).isSome = true := by
  have hnodup : ∀ k, (bucketGet (buildGrid cs) k).Nodup := by
    intro k
    rw [bucketGet_buildGrid]
    exact (List.nodup_range _).filter _
  intro p hp
  obtain ⟨e, he, hpe⟩ := List.mem_flatMap.mp hp
  have hent := entry_eq_bucketGet _ (keysNodup_buildGrid cs) e he
  rw [hent] at hpe
  obtain ⟨hne, h1, h2⟩ := pairsOf_mem _ (hnodup e.1) p hpe
  rw [bucketGet_buildGrid] at h1 h2
  refine ⟨hne, List.mem_range.mp (List.mem_filter.mp h1).1,
    List.mem_range.mp (List.mem_filter.mp h2).1, ?_⟩
  simp [get_two_mut, hne]

theorem collidePairs_singleton (c : Circle) : collidePairs [c] = [c] := by
  unfold collidePairs
  have hempty : candidatePairs (buildGrid [c]) = [] := by
    rw [List.eq_nil_iff_forall_not_mem]
    intro p hp
    obtain ⟨hne, h1, h2, _⟩ := grid_pairs_facts [c] p hp
    simp only [List.length_singleton, Nat.lt_one_iff] at h1 h2
    exact hne (h1.trans h2.symm)
  rw [hempty]
  rfl

theorem subStep_nil (w ht : ℝ) (st : ℕ) (scs : List StaticCircle)
    (srs : List StaticRectangle) : subStep w ht st scs srs [] = [] := rfl

theorem subStep_singleton (w ht : ℝ) (st : ℕ) (c : Circle) :
    subStep w ht st [] [] [c] =
      [bounceWalls w ht (moveCircle st (applyGravity st c))] := by
  simp only [subStep, List.map_cons, List.map_nil]
  rw [collidePairs_singleton]
  simp

theorem bounceWalls_id (w ht : ℝ) (c : Circle)
    (h1 : ¬ (c.x_pos - c.radius < 0)) (h2 : ¬ (w < c.x_pos + c.radius))
    (h3 : ¬ (c.y_pos - c.radius < 0)) (h4 : ¬ (ht < c.y_pos + c.radius)) :
    bounceWalls w ht c = c := by
  simp only [bounceWalls]
  rw [if_neg h1, if_neg h2, if_neg h3, if_neg h4]

theorem bounceWalls_inBounds (w ht : ℝ) (c : Circle)
    (hw : 2 * c.radius ≤ w) (hh : 2 * c.radius ≤ ht) :
    inBounds w ht (bounceWalls w ht c) = true := by
  obtain ⟨cx, cy, cr, cv⟩ := c
  simp only at hw hh
  unfold inBounds
  rw [decide_eq_true_eq]
  simp only [bounceWalls]
  split_ifs <;>
    · dsimp only at *
      refine ⟨by linarith, by linarith, by linarith, by linarith⟩

/-! Concrete evaluations used by witnesses and counterexamples. -/

theorem intRange_single (a : ℤ) : intRange a a = [a] := by
  unfold intRange
  rw [show (a + 1 - a).toNat = 1 by omega]
  simp [List.range_succ]

theorem cellsOf_cex3a : cellsOf cex3a = [(0, 0)] := by
  simp only [cellsOf, cex3a]
  have h1 : ⌊((5:ℝ) - 499 / 100) / CELL_SIZE⌋ = 0 := by norm_num [CELL_SIZE]
  have h2 : ⌊((5:ℝ) + 499 / 100) / CELL_SIZE⌋ = 0 := by norm_num [CELL_SIZE]
  have h3 : ⌊((126 / 5:ℝ) - 499 / 100) / CELL_SIZE⌋ = 0 := by norm_num [CELL_SIZE]
  have h4 : ⌊((126 / 5:ℝ) + 499 / 100) / CELL_SIZE⌋ = 0 := by norm_num [CELL_SIZE]
  rw [h1, h2, h3, h4, intRange_single]
  simp

theorem cellsOf_cex3b : cellsOf cex3b = [(0, 0)] := by
  simp only [cellsOf, cex3b]
  have h1 : ⌊((12:ℝ) - 499 / 100) / CELL_SIZE⌋ = 0 := by norm_num [CELL_SIZE]
  have h2 : ⌊((12:ℝ) + 499 / 100) / CELL_SIZE⌋ = 0 := by norm_num [CELL_SIZE]
  have h3 : ⌊((126 / 5:ℝ) - 499 / 100) / CELL_SIZE⌋ = 0 := by norm_num [CELL_SIZE]
  have h4 : ⌊((126 / 5:ℝ) + 499 / 100) / CELL_SIZE⌋ = 0 := by norm_num [CELL_SIZE]
  rw [h1, h2, h3, h4, intRange_single]
  simp

theorem buildGrid_cex3 : buildGrid [cex3a, cex3b] = [((0, 0), [0, 1])] := by
  unfold buildGrid
  rw [show ([cex3a, cex3b].enum) = [(0, cex3a), (1, cex3b)] from rfl]
  simp only [List.foldl_cons, List.foldl_nil]
  rw [cellsOf_cex3a, cellsOf_cex3b]
  simp only [List.foldl_cons, List.foldl_nil]
  rfl

theorem candidatePairs_cex3 : candidatePairs (buildGrid [cex3a, cex3b]) = [(0, 1)] := by
  rw [buildGrid_cex3]
  rfl

theorem shrink_eval (x y r : ℝ) :
    applyAirResistanceAndShrink ⟨x, y, r, (0, 0)⟩ =
      ⟨x, y, r * SIZE_COEFFICIENT_PER_TICK, (0, 0)⟩ := by
  simp only [applyAirResistanceAndShrink, Circle.mk.injEq, Prod.mk.injEq]
  norm_num

theorem avoid_collision_cex3 :
    avoid_collision cex3a cex3b =
      (⟨351 / 100, 126 / 5, 499 / 100, (0, 1 / 5)⟩,
       ⟨1349 / 100, 126 / 5, 499 / 100, (0, 1 / 5)⟩) := by
  have hd : circleDistance cex3a cex3b = 7 := by
    unfold circleDistance cex3a cex3b
    exact sqrt_eval (by norm_num) (by norm_num)
  unfold cex3a cex3b at hd ⊢
  simp only [avoid_collision, resolveCollision, hd]
  norm_num [Circle.mk.injEq, Prod.mk.injEq]

theorem collidePairs_cex3 :
    collidePairs [cex3a, cex3b] =
      [⟨351 / 100, 126 / 5, 499 / 100, (0, 1 / 5)⟩,
       ⟨1349 / 100, 126 / 5, 499 / 100, (0, 1 / 5)⟩] := by
  unfold collidePairs
  rw [candidatePairs_cex3, List.foldl_cons, List.foldl_nil]
  unfold applyPair get_two_mut
  rw [if_neg (by norm_num : ¬ (0:ℕ) = 1)]
  simp only [List.getD_cons_zero, List.getD_cons_succ]
  rw [avoid_collision_cex3]
  rfl

/-! ## Claims -/

/-- Claim C1, amended: the dynamic-dynamic narrow phase divides only by
nonzero quantities (the distance in the main branch, the positive
`separation` in the coincident-center fallback, and the positive mass sum),
and the rectangle narrow phase divides only by a distance that its guard has
bounded away from zero.  (The circle-vs-static-circle case, which the
original claim also covered, is refuted separately: it divides by an
unguarded distance.) -/
theorem claim_C1 (a b : Circle) (hcol : circleDistance a b < a.radius + b.radius)
    (c : Circle) (rect : StaticRectangle)
    (hrect : 1e-8 < Real.sqrt (rectClosestDistSq c rect)) :
    (1e-8 < circleDistance a b → circleDistance a b ≠ 0) ∧
    (circleDistance a b ≤ 1e-8 →
      0 < a.radius + b.radius - circleDistance a b + 1e-8) ∧
    0 < a.radius * a.radius + b.radius * b.radius ∧
    0 < Real.sqrt (rectClosestDistSq c rect) := by
  have hd0 : 0 ≤ circleDistance a b := circleDistance_nonneg a b
  have hsum : 0 < a.radius + b.radius := lt_of_le_of_lt hd0 hcol
  refine ⟨?_, ?_, ?_, ?_⟩
  · intro h
    have : (0:ℝ) < 1e-8 := by norm_num
    exact ne_of_gt (lt_trans this h)
  · intro _
    have : (0:ℝ) < 1e-8 := by norm_num
    linarith
  · nlinarith [sq_nonneg (a.radius - b.radius), mul_pos hsum hsum]
  · have : (0:ℝ) < 1e-8 := by norm_num
    linarith

/-- Witness for C1 at a concrete colliding pair and a concrete circle
outside a rectangle. -/
theorem claim_C1_witness :
    (1e-8 < circleDistance wa1 wb1 → circleDistance wa1 wb1 ≠ 0) ∧
    (circleDistance wa1 wb1 ≤ 1e-8 →
      0 < wa1.radius + wb1.radius - circleDistance wa1 wb1 + 1e-8) ∧
    0 < wa1.radius * wa1.radius + wb1.radius * wb1.radius ∧
    0 < Real.sqrt (rectClosestDistSq wc1 wrect1) := by
  have hdist : circleDistance wa1 wb1 = 5 := by
    unfold circleDistance wa1 wb1
    exact sqrt_eval (by norm_num) (by norm_num)
  have hdsq : rectClosestDistSq wc1 wrect1 = 25 := by
    unfold rectClosestDistSq clamp wc1 wrect1
    norm_num
  exact claim_C1 wa1 wb1 (by rw [hdist]; unfold wa1 wb1; norm_num) wc1 wrect1
    (by rw [hdsq, sqrt_eval (b := 5) (by norm_num) (by norm_num)]; norm_num)

/-- Counterexample to C1 as stated: when a dynamic circle's center coincides
with a static circle's center while overlapping, the guard of
`circle_static_circle_collision` is entered with center distance exactly `0`,
so the normal is computed by an unguarded division by zero (NaN in `f32`; in
the real-valued model `x / 0 = 0`, so the collision is left entirely
unresolved — the circle is not moved at all). -/
theorem claim_C1_counterexample :
    cscDistance wc1c wsc1 < wc1c.radius + wsc1.radius ∧
    cscDistance wc1c wsc1 = 0 ∧
    circle_static_circle_collision wc1c wsc1 = wc1c := by
  have hd : cscDistance wc1c wsc1 = 0 := by
    unfold cscDistance wc1c wsc1
    rw [show ((1:ℝ) - 1) * ((1:ℝ) - 1) + ((1:ℝ) - 1) * ((1:ℝ) - 1) = 0 by norm_num]
    exact Real.sqrt_zero
  refine ⟨?_, hd, ?_⟩
  · rw [hd]; unfold wc1c wsc1; norm_num
  · unfold circle_static_circle_collision
    rw [hd]
    unfold wc1c wsc1
    norm_num

/-- Claim C2: each `tick` adds exactly 1 to `frame_number` (the `u32`
counter is modelled mod `2^32`; the hypothesis excludes the wrap forced by
32-bit arithmetic), and the emitted frame carries the same number. -/
theorem claim_C2 (g : Grid) (st : ℕ) (msgs : List GridMessage)
    (h : g.frame_number + 1 < 2 ^ 32) :
    (tick g st msgs).1.frame_number = g.frame_number + 1 ∧
    (tick g st msgs).2.frame_number = g.frame_number + 1 := by
  have hfold := foldl_processMessage_frame msgs g
  constructor <;>
    · simp only [tick]
      rw [hfold, Nat.mod_eq_of_lt h]

/-- Witness for C2 on the empty world. -/
theorem claim_C2_witness :
    (tick g0 1 []).1.frame_number = g0.frame_number + 1 ∧
    (tick g0 1 []).2.frame_number = g0.frame_number + 1 :=
  claim_C2 g0 1 [] (by norm_num [g0])

/-- Claim C5: dynamic-dynamic narrow-phase resolution of a pair at center
distance at least the sum of the radii returns both circles unchanged, so a
second invocation on an already-resolved pair is a no-op. -/
theorem claim_C5 (a b : Circle) (h : a.radius + b.radius ≤ circleDistance a b) :
    avoid_collision a b = (a, b) := by
  simp only [avoid_collision]
  rw [if_pos h]

/-- Witness for C5 at a concrete separated pair. -/
theorem claim_C5_witness : avoid_collision wa5 wb5 = (wa5, wb5) := by
  have hdist : circleDistance wa5 wb5 = 5 := by
    unfold circleDistance wa5 wb5
    exact sqrt_eval (by norm_num) (by norm_num)
  exact claim_C5 wa5 wb5 (by rw [hdist]; unfold wa5 wb5; norm_num)

/-- Claim C6: for two overlapping dynamic circles of equal radius (equal
`radius²` mass proxy), in the non-degenerate branch the elastic update
exchanges the normal velocity components exactly and leaves the tangential
components unchanged; the head-on equal-and-opposite exchange is the special
case recorded by the witness. -/
theorem claim_C6 (a b : Circle) (nx ny : ℝ)
    (hnx : nx = (b.x_pos - a.x_pos) / circleDistance a b)
    (hny : ny = (b.y_pos - a.y_pos) / circleDistance a b)
    (heps : 1e-8 < circleDistance a b)
    (hover : circleDistance a b < a.radius + b.radius)
    (heq : a.radius = b.radius) :
    nx * (avoid_collision a b).1.velocity.1 + ny * (avoid_collision a b).1.velocity.2
      = nx * b.velocity.1 + ny * b.velocity.2 ∧
    nx * (avoid_collision a b).2.velocity.1 + ny * (avoid_collision a b).2.velocity.2
      = nx * a.velocity.1 + ny * a.velocity.2 ∧
    (-ny) * (avoid_collision a b).1.velocity.1 + nx * (avoid_collision a b).1.velocity.2
      = (-ny) * a.velocity.1 + nx * a.velocity.2 ∧
    (-ny) * (avoid_collision a b).2.velocity.1 + nx * (avoid_collision a b).2.velocity.2
      = (-ny) * b.velocity.1 + nx * b.velocity.2 := by
  have hd0 : (0:ℝ) < circleDistance a b := lt_trans (by norm_num) heps
  have hdne : circleDistance a b ≠ 0 := ne_of_gt hd0
  have hdd : circleDistance a b * circleDistance a b =
      (b.x_pos - a.x_pos) * (b.x_pos - a.x_pos) +
        (b.y_pos - a.y_pos) * (b.y_pos - a.y_pos) := by
    unfold circleDistance
    exact Real.mul_self_sqrt (add_nonneg (mul_self_nonneg _) (mul_self_nonneg _))
  have hnn : nx * nx + ny * ny = 1 := by
    rw [hnx, hny]
    field_simp
    linarith [hdd]
  have hr : 0 < b.radius := by
    have h0 := Real.sqrt_nonneg ((b.x_pos - a.x_pos) * (b.x_pos - a.x_pos) +
      (b.y_pos - a.y_pos) * (b.y_pos - a.y_pos))
    rw [heq] at hover
    unfold circleDistance at hover
    linarith
  have hm : b.radius * b.radius + b.radius * b.radius ≠ 0 := by positivity
  have key : ∀ x y : ℝ,
      (x * (b.radius * b.radius - b.radius * b.radius) +
        2 * (b.radius * b.radius) * y) / (b.radius * b.radius + b.radius * b.radius)
        = y := by
    intro x y
    rw [sub_self, mul_zero, zero_add]
    rw [div_eq_iff hm]
    ring
  simp only [avoid_collision]
  rw [if_neg (not_le.mpr hover), if_pos heps]
  rw [← hnx, ← hny]
  simp only [resolveCollision]
  rw [heq]
  simp only [key]
  refine ⟨?_, ?_, ?_, ?_⟩
  · linear_combination (nx * b.velocity.1 + ny * b.velocity.2) * hnn
  · linear_combination (nx * a.velocity.1 + ny * a.velocity.2) * hnn
  · linear_combination ((-ny) * a.velocity.1 + nx * a.velocity.2) * hnn
  · linear_combination ((-ny) * b.velocity.1 + nx * b.velocity.2) * hnn

/-- Witness for C6 at an overlapping equal-radius pair with normal
(3/5, 4/5). -/
theorem claim_C6_witness :
    (3/5 : ℝ) * (avoid_collision wa6 wb6).1.velocity.1 +
        (4/5 : ℝ) * (avoid_collision wa6 wb6).1.velocity.2
      = 3/5 * wb6.velocity.1 + 4/5 * wb6.velocity.2 ∧
    (3/5 : ℝ) * (avoid_collision wa6 wb6).2.velocity.1 +
        (4/5 : ℝ) * (avoid_collision wa6 wb6).2.velocity.2
      = 3/5 * wa6.velocity.1 + 4/5 * wa6.velocity.2 ∧
    (-(4/5) : ℝ) * (avoid_collision wa6 wb6).1.velocity.1 +
        (3/5 : ℝ) * (avoid_collision wa6 wb6).1.velocity.2
      = -(4/5) * wa6.velocity.1 + 3/5 * wa6.velocity.2 ∧
    (-(4/5) : ℝ) * (avoid_collision wa6 wb6).2.velocity.1 +
        (3/5 : ℝ) * (avoid_collision wa6 wb6).2.velocity.2
      = -(4/5) * wb6.velocity.1 + 3/5 * wb6.velocity.2 := by
  have hd : circleDistance wa6 wb6 = 3 / 2 := by
    unfold circleDistance wa6 wb6
    exact sqrt_eval (by norm_num) (by norm_num)
  exact claim_C6 wa6 wb6 (3/5) (4/5)
    (by rw [hd]; unfold wa6 wb6; norm_num)
    (by rw [hd]; unfold wa6 wb6; norm_num)
    (by rw [hd]; norm_num)
    (by rw [hd]; unfold wa6 wb6; norm_num)
    rfl

/-- Claim C8, amended: when the circle's center lies strictly inside the
rectangle, both closest-point offsets are zero, so the `|dx| > |dy|`
comparison always fails and the fallback normal is the constant
`(0, signum 0) = (0, 1)` — independent of the per-axis penetrations; the
circle is then pushed along `(0, 1)` by its radius and its velocity is
reflected about that fixed normal with elasticity scaling. -/
theorem claim_C8 (c : Circle) (rect : StaticRectangle)
    (hx1 : rect.x_pos < c.x_pos) (hx2 : c.x_pos < rect.x_pos + rect.width)
    (hy1 : rect.y_pos < c.y_pos) (hy2 : c.y_pos < rect.y_pos + rect.height)
    (hr : c.radius ≠ 0) :
    circle_static_rectangle_collision c rect =
      { c with
          y_pos := c.y_pos + c.radius,
          velocity := (c.velocity.1,
            c.velocity.2 - 2 * c.velocity.2 * ELASTICITY_COEFFICIENT) } := by
  obtain ⟨cx, cy, cr, cv⟩ := c
  obtain ⟨rx, ry, rwd, rht⟩ := rect
  simp only at hx1 hx2 hy1 hy2 hr
  have hcx : clamp cx rx (rx + rwd) = cx := by
    unfold clamp
    rw [if_neg (not_lt.mpr (le_of_lt hx1)), if_neg (not_lt.mpr (le_of_lt hx2))]
  have hcy : clamp cy ry (ry + rht) = cy := by
    unfold clamp
    rw [if_neg (not_lt.mpr (le_of_lt hy1)), if_neg (not_lt.mpr (le_of_lt hy2))]
  simp only [circle_static_rectangle_collision, hcx, hcy, sub_self, mul_zero, add_zero]
  rw [if_pos (mul_self_pos.mpr hr)]
  simp only [Real.sqrt_zero]
  rw [if_neg (by norm_num : ¬ (1e-8:ℝ) < 0)]
  rw [if_neg (lt_irrefl |(0:ℝ)|)]
  have hsig : signum 0 = 1 := by
    unfold signum
    rw [if_neg (lt_irrefl (0:ℝ))]
  simp only [hsig]
  simp only [Circle.mk.injEq, Prod.mk.injEq]
  refine ⟨by ring, by ring, trivial, by ring, by ring⟩

/-- Witness for C8: a circle strictly inside the rectangle near its left
edge is displaced along +y by its radius and keeps its x position. -/
theorem claim_C8_witness :
    circle_static_rectangle_collision wc8 wrect8 =
      { wc8 with
          y_pos := wc8.y_pos + wc8.radius,
          velocity := (wc8.velocity.1,
            wc8.velocity.2 - 2 * wc8.velocity.2 * ELASTICITY_COEFFICIENT) } :=
  claim_C8 wc8 wrect8 (by norm_num [wc8, wrect8]) (by norm_num [wc8, wrect8])
    (by norm_num [wc8, wrect8]) (by norm_num [wc8, wrect8]) (by norm_num [wc8])

/-- Counterexample to C8 as stated: the mirror pair of strictly-inside
centers (50, 1) (just below the top edge) and (50, 99) (just above the
bottom edge) are both pushed in the same +y direction — the one near the top
edge is driven deeper into the rectangle — so the chosen normal is not the
signed unit vector of the larger-penetration axis (any axis/sign reading of
that rule would treat the mirror pair asymmetrically). -/
theorem claim_C8_counterexample :
    (circle_static_rectangle_collision cc8top wrect8).x_pos = 50 ∧
    (circle_static_rectangle_collision cc8top wrect8).y_pos = 1 + 5 ∧
    (circle_static_rectangle_collision cc8bot wrect8).x_pos = 50 ∧
    (circle_static_rectangle_collision cc8bot wrect8).y_pos = 99 + 5 := by
  have heval : ∀ cy : ℝ, 0 < cy → cy < 100 →
      circle_static_rectangle_collision ⟨50, cy, 5, (0, 0)⟩ wrect8 =
        ⟨50, cy + 5, 5, (0, 0)⟩ := by
    intro cy h1 h2
    unfold wrect8
    have hcx : clamp 50 0 (0 + 100) = 50 := by unfold clamp; norm_num
    have hcy : clamp cy 0 (0 + 100) = cy := by
      unfold clamp
      rw [if_neg (not_lt.mpr (le_of_lt h1)),
        if_neg (not_lt.mpr (by linarith : cy ≤ 0 + 100))]
    simp only [circle_static_rectangle_collision, hcx, hcy, sub_self, mul_zero, add_zero]
    rw [if_pos (by norm_num : (0:ℝ) < 5 * 5)]
    simp only [Real.sqrt_zero]
    rw [if_neg (by norm_num : ¬ (1e-8:ℝ) < 0)]
    rw [if_neg (lt_irrefl |(0:ℝ)|)]
    have hsig : signum 0 = 1 := by
      unfold signum
      rw [if_neg (lt_irrefl (0:ℝ))]
    simp only [hsig]
    simp only [Circle.mk.injEq, Prod.mk.injEq]
    norm_num
  have e1 := heval 1 (by norm_num) (by norm_num)
  have e2 := heval 99 (by norm_num) (by norm_num)
  unfold cc8top cc8bot
  rw [e1, e2]
  norm_num

/-- Claim C4: a tick's surviving dynamic circles carry exactly the shrunken
radii of the incoming circles (original store followed by this tick's
`AddCircle` commands, each multiplied by the per-tick shrink factor) that are
still at least the minimum threshold: the shrink-then-`retain` pass is the
sole destruction path, circles below the threshold are gone, and no sub-step
changes any radius.  Since `MIN_RADIUS_SIZE * SIZE_COEFFICIENT_PER_TICK <
MIN_RADIUS_SIZE`, a circle whose radius decayed to exactly the threshold is
removed by the immediately following tick. -/
theorem claim_C4 (g : Grid) (st : ℕ) (msgs : List GridMessage) :
    (tick g st msgs).1.circles.map Circle.radius =
      (((g.circles ++ msgs.filterMap addedCircle).map
        (fun c => c.radius * SIZE_COEFFICIENT_PER_TICK)).filter
          (fun r => decide (MIN_RADIUS_SIZE ≤ r))) ∧
    (tick g st msgs).2.circles = (tick g st msgs).1.circles ∧
    MIN_RADIUS_SIZE * SIZE_COEFFICIENT_PER_TICK < MIN_RADIUS_SIZE := by
  refine ⟨?_, rfl, ?_⟩
  · have key : ∀ cs₀ : List Circle,
        (List.filter (fun c => decide (MIN_RADIUS_SIZE ≤ c.radius))
          (cs₀.map applyAirResistanceAndShrink)).map Circle.radius =
        List.filter (fun r => decide (MIN_RADIUS_SIZE ≤ r))
          (cs₀.map (fun c => c.radius * SIZE_COEFFICIENT_PER_TICK)) := by
      intro cs₀
      induction cs₀ with
      | nil => rfl
      | cons c rest ih =>
        simp only [List.map_cons, List.filter_cons]
        have hrad : (applyAirResistanceAndShrink c).radius
            = c.radius * SIZE_COEFFICIENT_PER_TICK := rfl
        rw [hrad]
        by_cases hc : MIN_RADIUS_SIZE ≤ c.radius * SIZE_COEFFICIENT_PER_TICK
        · rw [if_pos (by simpa using hc), if_pos (by simpa using hc)]
          simp only [List.map_cons, hrad, ih]
        · rw [if_neg (by simpa using hc), if_neg (by simpa using hc)]
          exact ih
    simp only [tick]
    rw [iterate_subStep_radius, foldl_processMessage_circles msgs g]
    exact key _
  · unfold MIN_RADIUS_SIZE SIZE_COEFFICIENT_PER_TICK
    norm_num

/-- Claim C9: world width and height are unchanged by a tick whose drained
messages contain no `Resize`, and the static circle and static rectangle
collections are only ever extended, by exactly this tick's
`AddStaticCircle`/`AddStaticRectangle` commands in order; no physics phase
touches them, and the emitted frame mirrors the store. -/
theorem claim_C9 (g : Grid) (st : ℕ) (msgs : List GridMessage)
    (h : ∀ m ∈ msgs, m.isResize = false) :
    (tick g st msgs).1.width = g.width ∧
    (tick g st msgs).1.height = g.height ∧
    (tick g st msgs).1.static_circles =
      g.static_circles ++ msgs.filterMap addedStaticCircle ∧
    (tick g st msgs).1.static_rectangles =
      g.static_rectangles ++ msgs.filterMap addedStaticRectangle ∧
    (tick g st msgs).2.width = (tick g st msgs).1.width ∧
    (tick g st msgs).2.height = (tick g st msgs).1.height ∧
    (tick g st msgs).2.static_circles = (tick g st msgs).1.static_circles ∧
    (tick g st msgs).2.static_rectangles = (tick g st msgs).1.static_rectangles := by
  have hwh := foldl_processMessage_width_height msgs g h
  exact ⟨hwh.1, hwh.2, foldl_processMessage_static_circles msgs g,
    foldl_processMessage_static_rectangles msgs g, rfl, rfl, rfl, rfl⟩

/-- Witness for C9: a tick draining one `AddStaticCircle`, one
`AddStaticRectangle` and one `AddCircle` (no `Resize`). -/
theorem claim_C9_witness :
    (tick g0 1 [GridMessage.addStaticCircle wsc1, GridMessage.addStaticRectangle wrect1,
        GridMessage.addCircle wa5]).1.width = g0.width ∧
    (tick g0 1 [GridMessage.addStaticCircle wsc1, GridMessage.addStaticRectangle wrect1,
        GridMessage.addCircle wa5]).1.height = g0.height ∧
    (tick g0 1 [GridMessage.addStaticCircle wsc1, GridMessage.addStaticRectangle wrect1,
        GridMessage.addCircle wa5]).1.static_circles =
      g0.static_circles ++ [GridMessage.addStaticCircle wsc1,
        GridMessage.addStaticRectangle wrect1,
        GridMessage.addCircle wa5].filterMap addedStaticCircle ∧
    (tick g0 1 [GridMessage.addStaticCircle wsc1, GridMessage.addStaticRectangle wrect1,
        GridMessage.addCircle wa5]).1.static_rectangles =
      g0.static_rectangles ++ [GridMessage.addStaticCircle wsc1,
        GridMessage.addStaticRectangle wrect1,
        GridMessage.addCircle wa5].filterMap addedStaticRectangle ∧
    (tick g0 1 [GridMessage.addStaticCircle wsc1, GridMessage.addStaticRectangle wrect1,
        GridMessage.addCircle wa5]).2.width =
      (tick g0 1 [GridMessage.addStaticCircle wsc1, GridMessage.addStaticRectangle wrect1,
        GridMessage.addCircle wa5]).1.width ∧
    (tick g0 1 [GridMessage.addStaticCircle wsc1, GridMessage.addStaticRectangle wrect1,
        GridMessage.addCircle wa5]).2.height =
      (tick g0 1 [GridMessage.addStaticCircle wsc1, GridMessage.addStaticRectangle wrect1,
        GridMessage.addCircle wa5]).1.height ∧
    (tick g0 1 [GridMessage.addStaticCircle wsc1, GridMessage.addStaticRectangle wrect1,
        GridMessage.addCircle wa5]).2.static_circles =
      (tick g0 1 [GridMessage.addStaticCircle wsc1, GridMessage.addStaticRectangle wrect1,
        GridMessage.addCircle wa5]).1.static_circles ∧
    (tick g0 1 [GridMessage.addStaticCircle wsc1, GridMessage.addStaticRectangle wrect1,
        GridMessage.addCircle wa5]).2.static_rectangles =
      (tick g0 1 [GridMessage.addStaticCircle wsc1, GridMessage.addStaticRectangle wrect1,
        GridMessage.addCircle wa5]).1.static_rectangles :=
  claim_C9 g0 1 _ (by
    intro m hm
    simp only [List.mem_cons, List.not_mem_nil, or_false] at hm
    rcases hm with rfl | rfl | rfl <;> rfl)

/-- Claim C7: a circle index lies in a grid bucket exactly when the bucket's
cell coordinates fall in the floored bounding-box ranges of that circle, and
every pair of overlapping circles (nonnegative radii) is enumerated as a
candidate pair from some shared bucket. -/
theorem claim_C7 (cs : List Circle) :
    (∀ (i : ℕ) (cx cy : ℤ),
      i ∈ bucketGet (buildGrid cs) (cx, cy) ↔
        ∃ h : i < cs.length,
          ⌊(cs[i].x_pos - cs[i].radius) / CELL_SIZE⌋ ≤ cx ∧
          cx ≤ ⌊(cs[i].x_pos + cs[i].radius) / CELL_SIZE⌋ ∧
          ⌊(cs[i].y_pos - cs[i].radius) / CELL_SIZE⌋ ≤ cy ∧
          cy ≤ ⌊(cs[i].y_pos + cs[i].radius) / CELL_SIZE⌋) ∧
    ∀ (i j : ℕ) (hi : i < cs.length) (hj : j < cs.length), i ≠ j →
      0 ≤ cs[i].radius → 0 ≤ cs[j].radius →
      circleDistance cs[i] cs[j] < cs[i].radius + cs[j].radius →
      ((i, j) ∈ candidatePairs (buildGrid cs) ∨
        (j, i) ∈ candidatePairs (buildGrid cs)) := by
  have hmembkt : ∀ (i : ℕ) (cx cy : ℤ),
      i ∈ bucketGet (buildGrid cs) (cx, cy) ↔
        ∃ h : i < cs.length,
          ⌊(cs[i].x_pos - cs[i].radius) / CELL_SIZE⌋ ≤ cx ∧
          cx ≤ ⌊(cs[i].x_pos + cs[i].radius) / CELL_SIZE⌋ ∧
          ⌊(cs[i].y_pos - cs[i].radius) / CELL_SIZE⌋ ≤ cy ∧
          cy ≤ ⌊(cs[i].y_pos + cs[i].radius) / CELL_SIZE⌋ := by
    intro i cx cy
    rw [bucketGet_buildGrid]
    simp only [List.mem_filter, List.mem_range, decide_eq_true_eq]
    constructor
    · rintro ⟨hlen, hmem⟩
      rw [List.getD_eq_getElem cs default hlen] at hmem
      have h := mem_cellsOf.mp hmem
      exact ⟨hlen, h.1.1, h.1.2, h.2.1, h.2.2⟩
    · rintro ⟨hlen, hc⟩
      refine ⟨hlen, ?_⟩
      rw [List.getD_eq_getElem cs default hlen]
      exact mem_cellsOf.mpr ⟨⟨hc.1, hc.2.1⟩, hc.2.2.1, hc.2.2.2⟩
  refine ⟨hmembkt, ?_⟩
  intro i j hi hj hne hri hrj hover
  have h50 : (0:ℝ) < CELL_SIZE := by norm_num [CELL_SIZE]
  have hdivmono : ∀ a b : ℝ, a ≤ b → ⌊a / CELL_SIZE⌋ ≤ ⌊b / CELL_SIZE⌋ :=
    fun a b hab => Int.floor_le_floor ((div_le_div_iff_of_pos_right h50).mpr hab)
  have habsx : |cs[j].x_pos - cs[i].x_pos| ≤ circleDistance cs[i] cs[j] := by
    unfold circleDistance
    rw [← Real.sqrt_mul_self_eq_abs]
    exact Real.sqrt_le_sqrt (by nlinarith [mul_self_nonneg (cs[j].y_pos - cs[i].y_pos)])
  have habsy : |cs[j].y_pos - cs[i].y_pos| ≤ circleDistance cs[i] cs[j] := by
    unfold circleDistance
    rw [← Real.sqrt_mul_self_eq_abs]
    exact Real.sqrt_le_sqrt (by nlinarith [mul_self_nonneg (cs[j].x_pos - cs[i].x_pos)])
  have hx1 := le_abs_self (cs[j].x_pos - cs[i].x_pos)
  have hx2 := neg_abs_le (cs[j].x_pos - cs[i].x_pos)
  have hy1 := le_abs_self (cs[j].y_pos - cs[i].y_pos)
  have hy2 := neg_abs_le (cs[j].y_pos - cs[i].y_pos)
  set t := max (cs[i].x_pos - cs[i].radius) (cs[j].x_pos - cs[j].radius) with htdef
  set u := max (cs[i].y_pos - cs[i].radius) (cs[j].y_pos - cs[j].radius) with hudef
  have hti : cs[i].x_pos - cs[i].radius ≤ t := le_max_left _ _
  have htj : cs[j].x_pos - cs[j].radius ≤ t := le_max_right _ _
  have hti' : t ≤ cs[i].x_pos + cs[i].radius := by
    apply max_le
    · linarith
    · linarith
  have htj' : t ≤ cs[j].x_pos + cs[j].radius := by
    apply max_le
    · linarith
    · linarith
  have hui : cs[i].y_pos - cs[i].radius ≤ u := le_max_left _ _
  have huj : cs[j].y_pos - cs[j].radius ≤ u := le_max_right _ _
  have hui' : u ≤ cs[i].y_pos + cs[i].radius := by
    apply max_le
    · linarith
    · linarith
  have huj' : u ≤ cs[j].y_pos + cs[j].radius := by
    apply max_le
    · linarith
    · linarith
  have hmi : i ∈ bucketGet (buildGrid cs) (⌊t / CELL_SIZE⌋, ⌊u / CELL_SIZE⌋) :=
    (hmembkt i _ _).mpr ⟨hi, hdivmono _ _ hti, hdivmono _ _ hti',
      hdivmono _ _ hui, hdivmono _ _ hui'⟩
  have hmj : j ∈ bucketGet (buildGrid cs) (⌊t / CELL_SIZE⌋, ⌊u / CELL_SIZE⌋) :=
    (hmembkt j _ _).mpr ⟨hj, hdivmono _ _ htj, hdivmono _ _ htj',
      hdivmono _ _ huj, hdivmono _ _ huj'⟩
  have hbne : bucketGet (buildGrid cs) (⌊t / CELL_SIZE⌋, ⌊u / CELL_SIZE⌋) ≠ [] := by
    intro hh
    rw [hh] at hmi
    exact List.not_mem_nil i hmi
  have hentry := bucketGet_mem_buildGrid (buildGrid cs) _ hbne
  rcases mem_pairsOf_of_mem hmi hmj hne with h | h
  · exact Or.inl (List.mem_flatMap.mpr ⟨_, hentry, h⟩)
  · exact Or.inr (List.mem_flatMap.mpr ⟨_, hentry, h⟩)

/-- Witness for C7 at a concrete overlapping pair: the pair (0, 1) (in one
order or the other) is a broad-phase candidate. -/
theorem claim_C7_witness :
    (0, 1) ∈ candidatePairs (buildGrid [wa1, wb1]) ∨
    (1, 0) ∈ candidatePairs (buildGrid [wa1, wb1]) := by
  have hdist : circleDistance wa1 wb1 = 5 := by
    unfold circleDistance wa1 wb1
    exact sqrt_eval (by norm_num) (by norm_num)
  refine (claim_C7 [wa1, wb1]).2 0 1 (by norm_num) (by norm_num) (by norm_num)
    ?_ ?_ ?_
  · show (0:ℝ) ≤ wa1.radius
    unfold wa1
    norm_num
  · show (0:ℝ) ≤ wb1.radius
    unfold wb1
    norm_num
  · show circleDistance wa1 wb1 < wa1.radius + wb1.radius
    rw [hdist]
    unfold wa1 wb1
    norm_num

/-- Claim C10: every grid bucket holds each circle index at most once, and
every candidate pair drawn from a bucket has two distinct in-range indices,
so `get_two_mut`'s `assert!(i != j)` (modelled by the `none` branch) never
fires and the two fetched circles are distinct entries. -/
theorem claim_C10 (cs : List Circle) :
    (∀ k, (bucketGet (buildGrid cs) k).Nodup) ∧
    ∀ p ∈ candidatePairs (buildGrid cs),
      p.1 ≠ p.2 ∧ p.1 < cs.length ∧ p.2 < cs.length ∧
      (get_two_mut cs p.1 p.2).isSome = true := by
  refine ⟨?_, grid_pairs_facts cs⟩
  intro k
  rw [bucketGet_buildGrid]
  exact (List.nodup_range _).filter _

/-- Witness for C10 at a concrete two-circle grid whose only candidate pair
is (0, 1). -/
theorem claim_C10_witness :
    (0:ℕ) ≠ 1 ∧ 0 < [cex3a, cex3b].length ∧ 1 < [cex3a, cex3b].length ∧
    (get_two_mut [cex3a, cex3b] 0 1).isSome = true :=
  (claim_C10 [cex3a, cex3b]).2 (0, 1)
    (by rw [candidatePairs_cex3]; exact List.mem_singleton.mpr rfl)

/-- Claim C3, amended: the wall-bounce pass does establish the containment
invariant, and a tick on a world with a single dynamic circle and no static
obstacles ends in bounds (given the shrunken diameter fits the world); but
the collision passes run after the wall pass within each sub-step, so with
two or more circles a tick can end with a circle out of bounds (see the
counterexample). -/
theorem claim_C3 (g : Grid) (st : ℕ) (c : Circle)
    (hc : g.circles = [c]) (hsc : g.static_circles = [])
    (hsr : g.static_rectangles = []) (hst : 1 ≤ st)
    (hw : 2 * (c.radius * SIZE_COEFFICIENT_PER_TICK) ≤ g.width)
    (hh : 2 * (c.radius * SIZE_COEFFICIENT_PER_TICK) ≤ g.height) :
    ((tick g st []).1.circles).all (inBounds g.width g.height) = true := by
  obtain ⟨m, rfl⟩ : ∃ m, st = m + 1 := ⟨st - 1, by omega⟩
  simp only [tick, List.foldl_nil]
  rw [hc, hsc, hsr]
  simp only [List.map_cons, List.map_nil]
  set c' := applyAirResistanceAndShrink c with hc'
  have hrc' : c'.radius = c.radius * SIZE_COEFFICIENT_PER_TICK := rfl
  rw [List.filter_cons, List.filter_nil]
  by_cases hkeep : MIN_RADIUS_SIZE ≤ c'.radius
  · rw [if_pos (decide_eq_true hkeep)]
    have key : ∀ (n : ℕ) (c₀ : Circle),
        ∃ c₁ : Circle, c₁.radius = c₀.radius ∧
          ((subStep g.width g.height (m + 1) [] [])^[n + 1]) [c₀] =
            [bounceWalls g.width g.height c₁] := by
      intro n
      induction n with
      | zero =>
        intro c₀
        refine ⟨moveCircle (m + 1) (applyGravity (m + 1) c₀), rfl, ?_⟩
        rw [Function.iterate_one, subStep_singleton]
      | succ k ih =>
        intro c₀
        obtain ⟨c₁, hr, heq⟩ := ih c₀
        refine ⟨moveCircle (m + 1) (applyGravity (m + 1)
          (bounceWalls g.width g.height c₁)), ?_, ?_⟩
        · rw [moveCircle_radius, applyGravity_radius, bounceWalls_radius, hr]
        · rw [Function.iterate_succ_apply', heq, subStep_singleton]
    obtain ⟨c₁, hr, heq⟩ := key m c'
    rw [heq, List.all_cons, List.all_nil, Bool.and_true]
    apply bounceWalls_inBounds
    · rw [hr, hrc']
      exact hw
    · rw [hr, hrc']
      exact hh
  · rw [if_neg (fun hh => hkeep (of_decide_eq_true hh))]
    rw [Function.iterate_fixed (subStep_nil _ _ _ _ _)]
    rfl

/-- Witness for C3 (amended) on a single centered circle in a 100×100
world. -/
theorem claim_C3_witness :
    ((tick w3g 1 []).1.circles).all (inBounds w3g.width w3g.height) = true :=
  claim_C3 w3g 1 ⟨50, 50, 5, (0, 0)⟩ rfl rfl rfl (by norm_num)
    (by norm_num [SIZE_COEFFICIENT_PER_TICK, w3g])
    (by norm_num [SIZE_COEFFICIENT_PER_TICK, w3g])

/-- Counterexample to C3 as stated: in a 100×100 world with two slow,
overlapping circles (radius-5 circle resting against the left wall and a
neighbour overlapping it), one tick with one sub-step ends with the first
circle at x = 3.51 < radius = 4.99 — outside [radius, width − radius] —
because pair resolution runs after, and undoes, the wall clamp; the
per-sub-step displacements (0.2 from gravity, 1.49 from the push-out) are
far smaller than the world dimensions, so the claim's precondition holds. -/
theorem claim_C3_counterexample :
    (tick cex3g 1 []).1.circles =
      [⟨351 / 100, 126 / 5, 499 / 100, (0, 1 / 5)⟩,
       ⟨1349 / 100, 126 / 5, 499 / 100, (0, 1 / 5)⟩] ∧
    ((351:ℝ) / 100 < 499 / 100) ∧ ((499:ℝ) / 100 ≤ 100 - 499 / 100) := by
  refine ⟨?_, by norm_num, by norm_num⟩
  simp only [tick, List.foldl_nil, cex3g]
  rw [List.map_cons, List.map_cons, List.map_nil, shrink_eval, shrink_eval]
  rw [show (5:ℝ) * SIZE_COEFFICIENT_PER_TICK = 499 / 100 by
    norm_num [SIZE_COEFFICIENT_PER_TICK]]
  rw [List.filter_cons, List.filter_cons, List.filter_nil,
    if_pos (decide_eq_true (show MIN_RADIUS_SIZE ≤
      ((⟨5, 25, 499 / 100, (0, 0)⟩ : Circle)).radius by norm_num [MIN_RADIUS_SIZE])),
    if_pos (decide_eq_true (show MIN_RADIUS_SIZE ≤
      ((⟨12, 25, 499 / 100, (0, 0)⟩ : Circle)).radius by norm_num [MIN_RADIUS_SIZE]))]
  rw [Function.iterate_one]
  simp only [subStep, List.map_cons, List.map_nil]
  rw [show applyGravity 1 ⟨5, 25, 499 / 100, (0, 0)⟩ = ⟨5, 25, 499 / 100, (0, 1 / 5)⟩ by
    simp only [applyGravity, GRAVITY, Circle.mk.injEq, Prod.mk.injEq]
    norm_num]
  rw [show applyGravity 1 ⟨12, 25, 499 / 100, (0, 0)⟩ = ⟨12, 25, 499 / 100, (0, 1 / 5)⟩ by
    simp only [applyGravity, GRAVITY, Circle.mk.injEq, Prod.mk.injEq]
    norm_num]
  rw [show moveCircle 1 ⟨5, 25, 499 / 100, (0, 1 / 5)⟩ = cex3a by
    simp only [moveCircle, cex3a, Circle.mk.injEq, Prod.mk.injEq]
    norm_num]
  rw [show moveCircle 1 ⟨12, 25, 499 / 100, (0, 1 / 5)⟩ = cex3b by
    simp only [moveCircle, cex3b, Circle.mk.injEq, Prod.mk.injEq]
    norm_num]
  rw [bounceWalls_id 100 100 cex3a (by norm_num [cex3a]) (by norm_num [cex3a])
    (by norm_num [cex3a]) (by norm_num [cex3a])]
  rw [bounceWalls_id 100 100 cex3b (by norm_num [cex3b]) (by norm_num [cex3b])
    (by norm_num [cex3b]) (by norm_num [cex3b])]
  rw [collidePairs_cex3]
  simp

/-- C3 sanity companion: the width of `cex3g` (so the counterexample's bound
really is about `cex3g`'s own dimensions). -/
theorem cex3g_width : cex3g.width = 100 ∧ cex3g.height = 100 := ⟨rfl, rfl⟩

end Physics
